import Mathlib

/-
  Verification development for the pdf-to-image-converter repository.

  The definitions below are a shallow embedding of src/populate_csv_parallel.py
  (and the glob behaviour shared with src/main.py).  Strings from the Python
  side are modelled as List Char; the Cloudinary upload call is an external
  collaborator and is modelled by an outcome oracle giving, per attempt, either
  a URL or a failure.  Thread-pool nondeterminism is modelled by quantifying
  over the completion order (an arbitrary permutation of the task indices).
-/

/-! ## Character classes of the Python regexes and of str.strip -/

/-- Membership in the regex class [0-9]. -/
def isPyDigit (c : Char) : Bool :=
  '0'.toNat ≤ c.toNat && c.toNat ≤ '9'.toNat

/-- Membership in the regex class [0-9.] used by parse_folder_name. -/
def isDigitDot (c : Char) : Bool :=
  isPyDigit c || c = '.'

/-- The CPython whitespace set: the characters matched by the regex class
backslash-s on str patterns, reported true by str.isspace, and stripped by
str.strip with no arguments — all three notions agree on exactly this set of
code points: 9-13, 28-31, 32, 133 (next line), 160 (no-break space), 5760
(ogham space), 8192-8202 (typographic spaces), 8232 and 8233 (line and
paragraph separators), 8239, 8287 and 12288 (further unicode spaces). -/
def isPySpace (c : Char) : Bool :=
  (9 ≤ c.toNat && c.toNat ≤ 13) || (28 ≤ c.toNat && c.toNat ≤ 31) ||
  c.toNat = 32 || c.toNat = 133 || c.toNat = 160 || c.toNat = 5760 ||
  (8192 ≤ c.toNat && c.toNat ≤ 8202) || c.toNat = 8232 || c.toNat = 8233 ||
  c.toNat = 8239 || c.toNat = 8287 || c.toNat = 12288

/-- Model of the Python str.strip method with no arguments: remove leading
and trailing whitespace characters. -/
def pyStrip (l : List Char) : List Char :=
  ((l.dropWhile isPySpace).reverse.dropWhile isPySpace).reverse

/-! ## Regex engine for parse_folder_name (src/populate_csv_parallel.py lines 101-120)

The two patterns are RS=([0-9.]+)\s*- and RS=[0-9.]+\s*-\s*(.+), both used
with re.search, which scans left to right for the first start position at
which a match succeeds.  Because the character classes [0-9.], whitespace and
the literal hyphen are pairwise disjoint, the greedy quantifiers before the
hyphen never backtrack usefully, so maximal-munch is exact there.  The final
greedy \s* before (.+) does backtrack: if after consuming all whitespace no
matchable character remains for the dot, the engine gives whitespace back one
character at a time.  The dot matches any character except a newline. -/

/-- Shared front of the two patterns, RS=([0-9.]+)\s*- : on a match, returns
the captured digit group together with the remainder after the hyphen. -/
def matchHeader : List Char → Option (List Char × List Char)
  | 'R' :: 'S' :: '=' :: rest =>
    let digits := rest.takeWhile isDigitDot
    if digits.isEmpty then none
    else
      match (rest.dropWhile isDigitDot).dropWhile isPySpace with
      | '-' :: tail => some (digits, tail)
      | _ => none
  | _ => none

/-- Attempt to match RS=([0-9.]+)\s*- at the head of the list, returning the
captured group of digits and dots. -/
def matchCostAt (l : List Char) : Option (List Char) :=
  (matchHeader l).map Prod.fst

/-- Model of re.search for the cost pattern: try every start position from the
left, returning the first captured group. -/
def searchCost : List Char → Option (List Char)
  | [] => none
  | c :: cs =>
    match matchCostAt (c :: cs) with
    | some g => some g
    | none => searchCost cs

/-- Greedy match of (.+) at the head of the list: at least one character, none
of them a newline, as many as possible. -/
def dotPlusAt (l : List Char) : Option (List Char) :=
  match l with
  | [] => none
  | c :: _ => if c = '\n' then none else some (l.takeWhile (fun x => x != '\n'))

/-- Greedy match of \s*(.+) with backtracking: prefer consuming another
whitespace character; on failure of the remainder, match the dot here. -/
def spacesThenDotPlus (l : List Char) : Option (List Char) :=
  match l with
  | [] => none
  | c :: cs =>
    if isPySpace c then
      match spacesThenDotPlus cs with
      | some g => some g
      | none => dotPlusAt (c :: cs)
    else dotPlusAt (c :: cs)

/-- Attempt to match RS=[0-9.]+\s*-\s*(.+) at the head of the list, returning
the captured group of the final (.+). -/
def matchNameAt (l : List Char) : Option (List Char) :=
  match matchHeader l with
  | some (_, tail) => spacesThenDotPlus tail
  | none => none

/-- Model of re.search for the name pattern. -/
def searchName : List Char → Option (List Char)
  | [] => none
  | c :: cs =>
    match matchNameAt (c :: cs) with
    | some g => some g
    | none => searchName cs

/-- Embedding of parse_folder_name (src/populate_csv_parallel.py lines 101-120):
cost_price is the first captured cost group, defaulting to the empty string;
product_name is the stripped first captured name group, defaulting to the
whole input.  The try/except wrapper is dead for these regex operations. -/
def parse_folder_name (folder_name : List Char) : List Char × List Char :=
  let cost_price := (searchCost folder_name).getD []
  let product_name :=
    match searchName folder_name with
    | some g => pyStrip g
    | none => folder_name
  (product_name, cost_price)

/-- Predicate written from the words of the spec, for comparison with the
code: the folder name has exactly the form RS=number - name, where the
number is a nonempty run of digits and dots. -/
def specFolderPattern (s : List Char) : Prop :=
  ∃ num name, num ≠ [] ∧ (∀ c ∈ num, isDigitDot c = true) ∧
    s = 'R' :: 'S' :: '=' :: (num ++ ' ' :: '-' :: ' ' :: name)

/-! ## Folder scanner (src/populate_csv_parallel.py lines 122-139) -/

/-- Lexicographic comparison of file names by character code, as Python
sorted applies to the path objects returned by glob (all in one directory, so
ordering is by file name). -/
def lexLe : List Char → List Char → Bool
  | [], _ => true
  | _ :: _, [] => false
  | a :: as, b :: bs => a.toNat < b.toNat || (a.toNat == b.toNat && lexLe as bs)

/-- Propositional form of lexLe, for use with the sorting machinery. -/
def lexR (a b : List Char) : Prop := lexLe a b = true

instance : DecidableRel lexR := fun a b => decEq (lexLe a b) true

/-- Matching of the glob pattern star-dot-png: the file name ends in .png
(the star matches any sequence of characters, case sensitively). -/
def isPngFile (f : List Char) : Bool :=
  List.isSuffixOf ('.' :: 'p' :: 'n' :: 'g' :: []) f

/-- Model of the Python slice lst[:-k].  For k = 0 the stop index -0 is 0, so
the slice is empty; for positive k it drops the last k elements. -/
def pySliceDropLast (l : List (List Char)) (k : Nat) : List (List Char) :=
  if k = 0 then [] else l.take (l.length - k)

/-- Embedding of get_image_files (src/populate_csv_parallel.py lines 122-139):
sort the png files of the folder by name; if there are more than skip_last of
them return the slice files[:-skip_last], otherwise return the empty list
(the warning branch). -/
def get_image_files (files : List (List Char)) (skip_last : Nat) : List (List Char) :=
  let image_files := List.insertionSort lexR (files.filter isPngFile)
  if skip_last < image_files.length then pySliceDropLast image_files skip_last
  else []

/-! ## Upload client with retry (src/populate_csv_parallel.py lines 141-177)

The external upload call is modelled by an outcome oracle mapping the attempt
index to some url (success) or none (an exception).  The embedding records,
besides the returned value, the number of attempts made, the increments sent
to the performance monitor, and the list of backoff sleeps in order. -/

structure RetryOutcome where
  result : Option String
  attempts : Nat
  imagesInc : Nat
  failedInc : Nat
  sleeps : List Nat
deriving DecidableEq

/-- One iteration of the for-loop of upload_to_cloudinary_with_retry, indexed
by the current attempt number and the number of attempts remaining.  On
success the images counter is incremented and the url returned; on the last
failing attempt the failed counter is incremented and none returned; on an
earlier failing attempt the worker sleeps 2 to the power attempt and retries. -/
def retryLoop (outcome : Nat → Option String) (attempt : Nat) : Nat → RetryOutcome
  | 0 => ⟨none, attempt, 0, 0, []⟩
  | remaining + 1 =>
    match outcome attempt with
    | some url => ⟨some url, attempt + 1, 1, 0, []⟩
    | none =>
      if remaining = 0 then ⟨none, attempt + 1, 0, 1, []⟩
      else
        let rest := retryLoop outcome (attempt + 1) remaining
        ⟨rest.result, rest.attempts, rest.imagesInc, rest.failedInc,
          2 ^ attempt :: rest.sleeps⟩

/-- Embedding of upload_to_cloudinary_with_retry: run the attempt loop from
attempt 0 with max_retries attempts available.  The function is total: every
exception of the upload call is caught by the loop, so no exception escapes. -/
def upload_to_cloudinary_with_retry (outcome : Nat → Option String)
    (max_retries : Nat) : RetryOutcome :=
  retryLoop outcome 0 max_retries

/-! ## Image-level concurrent uploader (src/populate_csv_parallel.py lines 179-218)

The pool submits one task per image; results is a list of n none slots; as
futures complete, in an arbitrary order, results[index] is set to the value of
the task for that index; finally the none entries are filtered out.  The
completion order is modelled by an explicit list of indices. -/

/-- Result collection of upload_images_concurrently: starting from a list of
n none slots, write the outcome of task i at position i, in completion order. -/
def collectResults (g : Nat → Option String) (n : Nat) (order : List Nat) :
    List (Option String) :=
  order.foldl (fun acc i => acc.set i (g i)) (List.replicate n none)

/-- Embedding of upload_images_concurrently: collect the per-index outcomes in
completion order, then drop the none entries keeping the list order. -/
def upload_images_concurrently (g : Nat → Option String) (n : Nat)
    (order : List Nat) : List String :=
  (collectResults g n order).filterMap id

/-! ## Folder processing (src/populate_csv_parallel.py lines 220-261) -/

/-- Product record assembled by process_folder_parallel, with the eight media
slots as a list of length 8 (index i holds media_(i+1)). -/
structure ProductData where
  name : List Char
  description : List Char
  bulk_price : List Char
  preferred_supplier : List Char
  cost_price : List Char
  mrp : List Char
  uom : List Char
  set_size : List Char
  moq : List Char
  available_quantity : List Char
  media : List String
deriving DecidableEq

/-- Folder task: the folder name and the file names it contains. -/
structure RunFolder where
  name : List Char
  files : List (List Char)

/-- Per-run metric counters of the performance monitor that the claims refer
to (the timing fields are not needed). -/
structure Metrics where
  processed_folders : Nat
  processed_images : Nat
  failed_uploads : Nat
deriving DecidableEq

/-- Addition of metric counters, for aggregating the per-image and per-folder
increments of a run. -/
def Metrics.add (a b : Metrics) : Metrics :=
  ⟨a.processed_folders + b.processed_folders,
   a.processed_images + b.processed_images,
   a.failed_uploads + b.failed_uploads⟩

/-- Embedding of process_folder_parallel: parse the folder name, scan the
image files with skip_last 2, truncate to the first 8, upload them
concurrently (oracle i gives the attempt outcomes of image i, order is the
completion order), and assemble the product record, filling media slots left
to right from the resulting urls with the empty string elsewhere.  Returns
the record together with the metric increments of the folder. -/
def process_folder_parallel (folder : RunFolder)
    (oracle : Nat → Nat → Option String) (order : List Nat) :
    ProductData × Metrics :=
  let parsed := parse_folder_name folder.name
  let image_files := (get_image_files folder.files 2).take 8
  let n := image_files.length
  let g := fun i => (upload_to_cloudinary_with_retry (oracle i) 3).result
  let media_urls := upload_images_concurrently g n order
  let images :=
    ((List.range n).map
      (fun i => (upload_to_cloudinary_with_retry (oracle i) 3).imagesInc)).sum
  let failed :=
    ((List.range n).map
      (fun i => (upload_to_cloudinary_with_retry (oracle i) 3).failedInc)).sum
  (⟨parsed.1,
    ('P' :: 'r' :: 'o' :: 'd' :: 'u' :: 'c' :: 't' :: ' ' :: 'f' :: 'r' :: 'o' :: 'm' :: ' ' :: []) ++ parsed.1,
    [], [], parsed.2, [],
    'p' :: 'c' :: 's' :: [], [], [], [],
    (List.range 8).map (fun i => media_urls.getD i "")⟩,
   ⟨1, images, failed⟩)

/-! ## Run model (src/populate_csv_parallel.py lines 263-369)

The run is modelled after the csv has been loaded: existing holds the loaded
rows, folders the discovered folder tasks.  folderOrder is the completion
order of the folder pool; oracle fi gives the upload outcomes of folder fi,
and orders fi its image completion order.  The observable file behaviour is
recorded as a trace of events: one folderDone event per collected record, in
completion order, followed by at most one csvWrite event carrying the whole
saved file content, emitted only when there are new products. -/

inductive RunEvent where
  | folderDone : ProductData → RunEvent
  | csvWrite : List ProductData → RunEvent
deriving DecidableEq

/-- Discriminator for write events. -/
def RunEvent.isWrite : RunEvent → Bool
  | RunEvent.csvWrite _ => true
  | _ => false

/-- Discriminator for folder completion events. -/
def RunEvent.isDone : RunEvent → Bool
  | RunEvent.folderDone _ => true
  | _ => false

/-- Outcome of a run of populate_csv_parallel. -/
structure RunResult where
  trace : List RunEvent
  records : List ProductData
  metrics : Metrics
  success : Bool

/-- Embedding of populate_csv_parallel together with process_folders_in_batches:
process every folder (in completion order folderOrder), collect the records,
aggregate the metrics, write the csv once at the end when there are new
records (existing rows first, new records appended), and report success when
the number of collected records equals the number of discovered folders. -/
def populate_csv_parallel (existing : List ProductData) (folders : List RunFolder)
    (oracle : Nat → Nat → Nat → Option String) (orders : Nat → List Nat)
    (folderOrder : List Nat) : RunResult :=
  let results := folderOrder.map
    (fun fi => process_folder_parallel (folders.getD fi ⟨[], []⟩) (oracle fi) (orders fi))
  let records := results.map Prod.fst
  let metrics := (results.map Prod.snd).foldl Metrics.add ⟨0, 0, 0⟩
  let trace := records.map RunEvent.folderDone ++
    (if records.isEmpty then [] else [RunEvent.csvWrite (existing ++ records)])
  ⟨trace, records, metrics, records.length == folders.length⟩

/-! ## Performance monitor at the granularity of the lock
(src/populate_csv_parallel.py lines 48-71)

Each update method runs counter += increment while holding self.lock.  The
read-modify-write is modelled by two micro operations, a read into a
per-worker register and a write of register plus one; holding the lock means
the two micro operations of one update run contiguously, so a schedule of a
lock-guarded execution is a sequence of such atomic blocks, one per update,
in an arbitrary order of lock acquisition. -/

inductive MicroOp where
  | readCount : Nat → MicroOp
  | writeCount : Nat → MicroOp

/-- Shared counter plus the per-worker private registers. -/
structure PerfState where
  processed_images : Nat
  regs : Nat → Nat

/-- Execution of one micro operation: a read copies the shared counter into
the register of the worker; a write stores register plus one back. -/
def execOp (s : PerfState) : MicroOp → PerfState
  | MicroOp.readCount w => ⟨s.processed_images, fun v => if v = w then s.processed_images else s.regs v⟩
  | MicroOp.writeCount w => ⟨s.regs w + 1, s.regs⟩

/-- Execution of a schedule of micro operations from a given state. -/
def runSchedule (ops : List MicroOp) (s : PerfState) : PerfState :=
  ops.foldl execOp s

/-- Schedule of a lock-guarded run: ws lists, in lock-acquisition order, which
worker performs each update_images call; the lock makes the read and the
write of one call contiguous. -/
def lockedSchedule : List Nat → List MicroOp
  | [] => []
  | w :: ws => MicroOp.readCount w :: MicroOp.writeCount w :: lockedSchedule ws

/-! ## Helper lemmas on takeWhile and dropWhile -/

/-- takeWhile over an append whose left part satisfies the predicate. -/
theorem takeWhile_append_all {p : Char → Bool} {l r : List Char}
    (h : ∀ c ∈ l, p c = true) : (l ++ r).takeWhile p = l ++ r.takeWhile p := by
  induction l with
  | nil => simp
  | cons a as ih =>
    have ha : p a = true := h a (List.mem_cons_self a as)
    simp [List.takeWhile_cons, ha, ih (fun c hc => h c (List.mem_cons_of_mem a hc))]

/-- dropWhile over an append whose left part satisfies the predicate. -/
theorem dropWhile_append_all {p : Char → Bool} {l r : List Char}
    (h : ∀ c ∈ l, p c = true) : (l ++ r).dropWhile p = r.dropWhile p := by
  induction l with
  | nil => simp
  | cons a as ih =>
    have ha : p a = true := h a (List.mem_cons_self a as)
    simp [List.dropWhile_cons, ha, ih (fun c hc => h c (List.mem_cons_of_mem a hc))]

/-! ## Lemmas about the parse_folder_name embedding -/

/-- Behaviour of the backtracking tail matcher on a newline-free nonempty
list: it succeeds, and the captured group strips to the same string as the
whole input. -/
theorem spacesThenDotPlus_spec {l : List Char} (hnl : '\n' ∉ l) (hne : l ≠ []) :
    ∃ g, spacesThenDotPlus l = some g ∧ pyStrip g = pyStrip l := by
  induction l with
  | nil => exact absurd rfl hne
  | cons c cs ih =>
    have hc : c ≠ '\n' := fun h => hnl (h ▸ List.mem_cons_self c cs)
    by_cases hsp : isPySpace c = true
    · cases cs with
      | nil =>
        refine ⟨[c], ?_, rfl⟩
        simp [spacesThenDotPlus, hsp, dotPlusAt, hc]
      | cons d ds =>
        obtain ⟨g, hg, hstrip⟩ := ih (fun h => hnl (List.mem_cons_of_mem c h)) (by simp)
        refine ⟨g, ?_, ?_⟩
        · have hstep : spacesThenDotPlus (c :: d :: ds) =
              match spacesThenDotPlus (d :: ds) with
              | some g => some g
              | none => dotPlusAt (c :: d :: ds) := by
            conv_lhs => rw [spacesThenDotPlus.eq_def]
            simp [hsp]
          rw [hstep, hg]
        · rw [hstrip]
          simp [pyStrip, List.dropWhile_cons, hsp]
    · refine ⟨c :: cs, ?_, rfl⟩
      have htw : (c :: cs).takeWhile (fun x => x != '\n') = c :: cs :=
        List.takeWhile_eq_self_iff.mpr (fun x hx => by
          simp only [bne_iff_ne, ne_eq]
          exact fun h => hnl (h ▸ hx))
      simp [spacesThenDotPlus, hsp, dotPlusAt, hc, htw]

/-- Matching of the shared pattern head on a string of the exact spec form. -/
theorem matchHeader_form {num name : List Char} (hnum : num ≠ [])
    (hdig : ∀ c ∈ num, isDigitDot c = true) :
    matchHeader ('R' :: 'S' :: '=' :: (num ++ ' ' :: '-' :: ' ' :: name)) =
      some (num, ' ' :: name) := by
  have htw : (num ++ ' ' :: '-' :: ' ' :: name).takeWhile isDigitDot = num := by
    rw [takeWhile_append_all hdig]
    simp [List.takeWhile_cons, isDigitDot, isPyDigit]
  have hdw : (num ++ ' ' :: '-' :: ' ' :: name).dropWhile isDigitDot =
      ' ' :: '-' :: ' ' :: name := by
    rw [dropWhile_append_all hdig]
    simp [List.dropWhile_cons, isDigitDot, isPyDigit]
  have hsp : (' ' :: '-' :: ' ' :: name).dropWhile isPySpace = '-' :: ' ' :: name := by
    simp [List.dropWhile_cons, (by decide : isPySpace ' ' = true),
      (by decide : isPySpace '-' = false)]
  simp [matchHeader, htw, hdw, hsp, hnum]

/-- Failure of the name pattern at a position where the cost pattern fails. -/
theorem matchNameAt_none {l : List Char} (h : matchCostAt l = none) :
    matchNameAt l = none := by
  have hh : matchHeader l = none := by
    cases hm : matchHeader l with
    | none => rfl
    | some p => rw [matchCostAt, hm] at h; simp at h
  rw [matchNameAt, hh]

/-- Failure of the name search whenever the cost search fails. -/
theorem searchName_none : ∀ {s : List Char}, searchCost s = none → searchName s = none
  | [], _ => rfl
  | c :: cs, h => by
    rw [searchCost] at h
    rw [searchName]
    cases hm : matchCostAt (c :: cs) with
    | some g => rw [hm] at h; simp at h
    | none =>
      rw [hm] at h
      rw [matchNameAt_none hm]
      exact searchName_none h

/-- Amended C4, first half: on a folder name of the exact form
RS=number - name, with a nonempty number drawn from the digits-and-dot class
and a newline-free name, the parser returns the stripped name and the number. -/
theorem parse_folder_name_form (num name : List Char) (hnum : num ≠ [])
    (hdig : ∀ c ∈ num, isDigitDot c = true) (hnl : '\n' ∉ name) :
    parse_folder_name ('R' :: 'S' :: '=' :: (num ++ ' ' :: '-' :: ' ' :: name)) =
      (pyStrip name, num) := by
  have hhead := @matchHeader_form num name hnum hdig
  have hnl2 : '\n' ∉ (' ' :: name) := by
    intro h
    rcases List.mem_cons.mp h with h | h
    · exact absurd h.symm (by decide)
    · exact hnl h
  obtain ⟨g, hg, hstrip⟩ := spacesThenDotPlus_spec hnl2 (by simp)
  have hcost : searchCost ('R' :: 'S' :: '=' :: (num ++ ' ' :: '-' :: ' ' :: name)) =
      some num := by
    rw [searchCost, matchCostAt, hhead]
    rfl
  have hname : searchName ('R' :: 'S' :: '=' :: (num ++ ' ' :: '-' :: ' ' :: name)) =
      some g := by
    rw [searchName, matchNameAt, hhead]
    simp [hg]
  have hstrip2 : pyStrip (' ' :: name) = pyStrip name := by
    simp [pyStrip, List.dropWhile_cons, (by decide : isPySpace ' ' = true)]
  rw [parse_folder_name, hcost, hname]
  simp [hstrip, hstrip2]

/-- Amended C4, second half: on a folder name in which the cost pattern
occurs nowhere, the parser returns the input unchanged with an empty cost. -/
theorem parse_folder_name_unmatched (s : List Char) (h : searchCost s = none) :
    parse_folder_name s = (s, []) := by
  rw [parse_folder_name, h, searchName_none h]
  rfl

/-- C4 (amended): the parser matches by regex search rather than whole-string
anchoring.  First half: for a folder name of the exact form RS=number - name,
with the number a nonempty string over digits and the dot and the name free
of newlines, the result is the pair of the name stripped of leading and
trailing whitespace and the number as a string.  Second half: for a folder
name in which the cost pattern, RS= followed by digits and a hyphen, occurs
at no position, the result is the original string unchanged paired with the
empty string. -/
theorem C4_parse_folder_name :
    (∀ num name : List Char, num ≠ [] → (∀ c ∈ num, isDigitDot c = true) →
      '\n' ∉ name →
      parse_folder_name ('R' :: 'S' :: '=' :: (num ++ ' ' :: '-' :: ' ' :: name)) =
        (pyStrip name, num)) ∧
    (∀ s : List Char, searchCost s = none → parse_folder_name s = (s, [])) :=
  ⟨parse_folder_name_form, parse_folder_name_unmatched⟩

/-- C4 counterexample: the folder name xxRS=5 - A does not match the spec
pattern RS=number - name as a whole string, yet the parser does not return it
unchanged with an empty cost as the claim requires for non-matching strings:
because the code uses re.search, the pattern is found mid-string and the
parser returns the pair A and 5. -/
theorem C4_counterexample :
    ¬ specFolderPattern (String.toList "xxRS=5 - A") ∧
    parse_folder_name (String.toList "xxRS=5 - A") ≠ (String.toList "xxRS=5 - A", []) ∧
    parse_folder_name (String.toList "xxRS=5 - A") = (String.toList "A", String.toList "5") := by
  refine ⟨?_, by decide, by decide⟩
  rintro ⟨num, name, -, -, h⟩
  have h2 : (String.toList "xxRS=5 - A").headD ' ' = 'R' := by rw [h]; rfl
  exact absurd h2 (by decide)

/-- Witness for C4: both halves of the amended statement applied at concrete
inputs. -/
theorem C4_witness :
    parse_folder_name ('R' :: 'S' :: '=' ::
        (String.toList "10.5" ++ ' ' :: '-' :: ' ' :: String.toList " AB C ")) =
      (pyStrip (String.toList " AB C "), String.toList "10.5") ∧
    parse_folder_name (String.toList "hello") = (String.toList "hello", []) :=
  ⟨C4_parse_folder_name.1 (String.toList "10.5") (String.toList " AB C ")
      (by decide) (by decide) (by decide),
   C4_parse_folder_name.2 (String.toList "hello") (by decide)⟩

/-! ## Lemmas about the concurrent result collection -/

/-- Element description of the result list after the completion loop: every
index written somewhere in the completion order holds the outcome of its own
task, independently of where in the order it completed. -/
theorem foldl_set_getElem? (g : Nat → Option String) :
    ∀ (order : List Nat) (acc : List (Option String)),
      (∀ i ∈ order, i < acc.length) → ∀ j : Nat,
      (order.foldl (fun a i => a.set i (g i)) acc)[j]? =
        if j ∈ order then some (g j) else acc[j]? := by
  intro order
  induction order with
  | nil => intro acc _ j; simp
  | cons i t ih =>
    intro acc hmem j
    have hi : i < acc.length := hmem i (List.mem_cons_self i t)
    rw [List.foldl_cons,
      ih (acc.set i (g i)) (fun x hx => by
        rw [List.length_set]; exact hmem x (List.mem_cons_of_mem i hx)) j]
    by_cases hjt : j ∈ t
    · simp [hjt, List.mem_cons]
    · simp only [hjt, if_false]
      rw [List.getElem?_set]
      by_cases hij : i = j
      · subst hij
        simp [hi, List.mem_cons]
      · have hji : ¬ j = i := fun h => hij h.symm
        simp [List.mem_cons, hjt, hij, hji]

/-- Under any completion order that is a permutation of the task indices, the
collected result list equals the in-order list of task outcomes. -/
theorem collectResults_perm (g : Nat → Option String) (n : Nat) (order : List Nat)
    (h : order.Perm (List.range n)) :
    collectResults g n order = (List.range n).map g := by
  have hmem : ∀ i ∈ order, i < n := fun i hi => by
    have := h.mem_iff.mp hi
    simpa [List.mem_range] using this
  apply List.ext_getElem?
  intro j
  rw [collectResults, foldl_set_getElem? g order _
    (by simpa [List.length_replicate] using hmem) j]
  by_cases hj : j < n
  · have hjo : j ∈ order := h.mem_iff.mpr (by simpa [List.mem_range] using hj)
    simp [hjo, List.getElem?_map, List.getElem?_range hj]
  · have hjo : j ∉ order := fun hc => hj (hmem j hc)
    have hr : (List.range n)[j]? = none := by
      rw [List.getElem?_eq_none]
      simpa [List.length_range] using Nat.le_of_not_lt hj
    simp [hjo, List.getElem?_replicate, hj, List.getElem?_map, hr]

/-- Order-preservation of the image-level uploader: under any completion
order, the output is the list of successful outcomes in original index
order. -/
theorem upload_images_concurrently_perm (g : Nat → Option String) (n : Nat)
    (order : List Nat) (h : order.Perm (List.range n)) :
    upload_images_concurrently g n order = (List.range n).filterMap g := by
  rw [upload_images_concurrently, collectResults_perm g n order h,
    List.filterMap_map]
  rfl

/-- C2: for every list of image upload tasks and every completion order of
the concurrent pool, the returned list of the image-level uploader is exactly
the list of urls of the successfully uploaded images in their original
relative order, with failed images dropped and no gap markers. -/
theorem C2_upload_images_order (g : Nat → Option String) (n : Nat)
    (order : List Nat) (h : order.Perm (List.range n)) :
    upload_images_concurrently g n order = (List.range n).filterMap g :=
  upload_images_concurrently_perm g n order h

/-- Witness for C2: five images whose index 2 fails all retries, completing
in a scrambled order; the output is the four surviving urls in original
relative order. -/
theorem C2_witness :
    ([3, 1, 4, 0, 2] : List Nat).Perm (List.range 5) ∧
    upload_images_concurrently
      (fun i => if i = 2 then none else some (["u0", "u1", "u2", "u3", "u4"].getD i ""))
      5 [3, 1, 4, 0, 2] = ["u0", "u1", "u3", "u4"] := by
  refine ⟨by decide, ?_⟩
  rw [C2_upload_images_order _ 5 _ (by decide)]
  decide

/-! ## Lemmas about the retry loop -/

/-- Unfolding step of the retry loop for a positive number of remaining
attempts. -/
theorem retryLoop_step (outcome : Nat → Option String) (attempt r : Nat) :
    retryLoop outcome attempt (r + 1) =
      match outcome attempt with
      | some url => ⟨some url, attempt + 1, 1, 0, []⟩
      | none =>
        if r = 0 then ⟨none, attempt + 1, 0, 1, []⟩
        else
          ⟨(retryLoop outcome (attempt + 1) r).result,
           (retryLoop outcome (attempt + 1) r).attempts,
           (retryLoop outcome (attempt + 1) r).imagesInc,
           (retryLoop outcome (attempt + 1) r).failedInc,
           2 ^ attempt :: (retryLoop outcome (attempt + 1) r).sleeps⟩ := rfl

/-- Shifting of the backoff sleep list by one attempt. -/
theorem pow_sleeps_cons (attempt j : Nat) :
    (2 : Nat) ^ attempt :: (List.range j).map (fun k => 2 ^ (attempt + 1 + k)) =
      (List.range (j + 1)).map (fun k => 2 ^ (attempt + k)) := by
  rw [List.range_succ_eq_map, List.map_cons, List.map_map]
  refine congrArg₂ List.cons ?_ ?_
  · simp
  · apply List.map_congr_left
    intro x _
    simp only [Function.comp_apply]
    congr 1
    omega

/-- Exhaustion of the retry loop: if every attempt in the window fails, the
loop makes exactly the remaining number of attempts, increments the failed
counter once, sleeps two to the power attempt after every attempt but the
last, and returns none. -/
theorem retryLoop_all_fail (outcome : Nat → Option String) :
    ∀ remaining attempt, 0 < remaining →
      (∀ i, attempt ≤ i → i < attempt + remaining → outcome i = none) →
      retryLoop outcome attempt remaining =
        ⟨none, attempt + remaining, 0, 1,
          (List.range (remaining - 1)).map (fun k => 2 ^ (attempt + k))⟩ := by
  intro remaining
  induction remaining with
  | zero => intro attempt h; exact absurd h (by omega)
  | succ r ih =>
    intro attempt _ hfail
    have h0 : outcome attempt = none := hfail attempt le_rfl (by omega)
    cases r with
    | zero =>
      rw [retryLoop_step, h0]
      simp
    | succ r2 =>
      have hrest := ih (attempt + 1) (by omega)
        (fun i h1 h2 => hfail i (by omega) (by omega))
      rw [retryLoop_step, h0]
      simp only [Nat.succ_ne_zero, if_false]
      rw [hrest]
      have harith : attempt + 1 + (r2 + 1) = attempt + (r2 + 1 + 1) := by omega
      simp [RetryOutcome.mk.injEq, harith]
      exact pow_sleeps_cons attempt r2

/-- Success of the retry loop at attempt j after j failures: the loop returns
the url, increments the images counter once, and has slept after each of the
j failed attempts and never after the success. -/
theorem retryLoop_success (outcome : Nat → Option String) (url : String) :
    ∀ j remaining attempt, j < remaining →
      (∀ i, attempt ≤ i → i < attempt + j → outcome i = none) →
      outcome (attempt + j) = some url →
      retryLoop outcome attempt remaining =
        ⟨some url, attempt + j + 1, 1, 0,
          (List.range j).map (fun k => 2 ^ (attempt + k))⟩ := by
  intro j
  induction j with
  | zero =>
    intro remaining attempt hj hfail hsucc
    cases remaining with
    | zero => omega
    | succ r =>
      have h0 : outcome attempt = some url := by simpa using hsucc
      rw [retryLoop_step, h0]
      simp
  | succ j ih =>
    intro remaining attempt hj hfail hsucc
    cases remaining with
    | zero => omega
    | succ r =>
      have h0 : outcome attempt = none := hfail attempt le_rfl (by omega)
      have hr0 : r ≠ 0 := by omega
      have hrest := ih r (attempt + 1) (by omega)
        (fun i h1 h2 => hfail i (by omega) (by omega))
        (by rw [show attempt + 1 + j = attempt + (j + 1) by omega]; exact hsucc)
      rw [retryLoop_step, h0]
      simp only [hr0, if_false]
      rw [hrest]
      have harith : attempt + 1 + j + 1 = attempt + (j + 1) + 1 := by omega
      simp [RetryOutcome.mk.injEq, harith, pow_sleeps_cons attempt j]

/-- C3: for every upload whose attempts all fail, with a positive retry
budget, exactly max_retries attempts are made, the failure counter of the
metrics is incremented exactly once, the absence marker none is returned,
and the images counter is untouched; the embedded client is a total
function, so no exception escapes to the caller. -/
theorem C3_retry_exhaustion (outcome : Nat → Option String) (max_retries : Nat)
    (hpos : 0 < max_retries) (hfail : ∀ i, i < max_retries → outcome i = none) :
    (upload_to_cloudinary_with_retry outcome max_retries).attempts = max_retries ∧
    (upload_to_cloudinary_with_retry outcome max_retries).failedInc = 1 ∧
    (upload_to_cloudinary_with_retry outcome max_retries).result = none ∧
    (upload_to_cloudinary_with_retry outcome max_retries).imagesInc = 0 := by
  have h := retryLoop_all_fail outcome max_retries 0 hpos
    (fun i h1 h2 => hfail i (by omega))
  rw [upload_to_cloudinary_with_retry, h]
  simp

/-- Witness for C3: the always-failing upload with the default budget of 3. -/
theorem C3_witness :
    0 < 3 ∧
    (upload_to_cloudinary_with_retry (fun _ => none) 3).attempts = 3 ∧
    (upload_to_cloudinary_with_retry (fun _ => none) 3).failedInc = 1 ∧
    (upload_to_cloudinary_with_retry (fun _ => none) 3).result = none ∧
    (upload_to_cloudinary_with_retry (fun _ => none) 3).imagesInc = 0 :=
  ⟨by decide, C3_retry_exhaustion (fun _ => none) 3 (by decide) (fun _ _ => rfl)⟩

/-- C7: the client sleeps two to the power attempt after each failed
non-final attempt and never after a success or after the final attempt.
First half: an upload failing on attempts 0 to j-1 and succeeding at attempt
j accumulates exactly the sleeps 2 ^ 0, ..., 2 ^ (j - 1) before the url is
returned.  Second half: an upload failing on all R attempts accumulates
exactly the sleeps 2 ^ 0, ..., 2 ^ (R - 2), none after the final attempt. -/
theorem C7_backoff_schedule (outcome : Nat → Option String) (R : Nat) :
    (∀ j url, j < R → (∀ i, i < j → outcome i = none) → outcome j = some url →
      (upload_to_cloudinary_with_retry outcome R).sleeps =
        (List.range j).map (fun k => 2 ^ k) ∧
      (upload_to_cloudinary_with_retry outcome R).result = some url) ∧
    ((∀ i, i < R → outcome i = none) → 0 < R →
      (upload_to_cloudinary_with_retry outcome R).sleeps =
        (List.range (R - 1)).map (fun k => 2 ^ k) ∧
      (upload_to_cloudinary_with_retry outcome R).result = none) := by
  constructor
  · intro j url hj hfail hsucc
    have h := retryLoop_success outcome url j R 0 hj
      (fun i h1 h2 => hfail i (by omega)) (by simpa using hsucc)
    rw [upload_to_cloudinary_with_retry, h]
    simp
  · intro hfail hpos
    have h := retryLoop_all_fail outcome R 0 hpos (fun i h1 h2 => hfail i (by omega))
    rw [upload_to_cloudinary_with_retry, h]
    simp

/-- Witness for C7: an upload failing twice and then succeeding waits
2 ^ 0 and then 2 ^ 1 time units, at least 2 ^ 0 + 2 ^ 1 in total, before the
url is returned. -/
theorem C7_witness :
    (upload_to_cloudinary_with_retry (fun i => if i < 2 then none else some "u") 3).sleeps
      = [1, 2] ∧
    2 ^ 0 + 2 ^ 1 ≤
      ((upload_to_cloudinary_with_retry (fun i => if i < 2 then none else some "u") 3).sleeps).sum ∧
    (upload_to_cloudinary_with_retry (fun i => if i < 2 then none else some "u") 3).result
      = some "u" := by
  have h := (C7_backoff_schedule (fun i => if i < 2 then none else some "u") 3).1 2 "u"
    (by decide) (fun i hi => by simp [hi]) (by decide)
  refine ⟨?_, ?_, h.2⟩
  · rw [h.1]; decide
  · rw [h.1]; decide

/-! ## Totality and transitivity of the file name order -/

/-- Totality of the lexicographic comparison. -/
theorem lexLe_total (a : List Char) : ∀ b, lexLe a b = true ∨ lexLe b a = true := by
  induction a with
  | nil => intro b; left; rfl
  | cons x xs ih =>
    intro b
    cases b with
    | nil => right; rfl
    | cons y ys =>
      rcases Nat.lt_trichotomy x.toNat y.toNat with h | h | h
      · left; simp [lexLe, h]
      · rcases ih ys with h2 | h2
        · left; simp [lexLe, h, h2]
        · right; simp [lexLe, h.symm, h2]
      · right; simp [lexLe, h]

/-- Transitivity of the lexicographic comparison. -/
theorem lexLe_trans (a : List Char) :
    ∀ b c, lexLe a b = true → lexLe b c = true → lexLe a c = true := by
  induction a with
  | nil => intro b c _ _; rfl
  | cons x xs ih =>
    intro b c h1 h2
    cases b with
    | nil => simp [lexLe] at h1
    | cons y ys =>
      cases c with
      | nil => simp [lexLe] at h2
      | cons z zs =>
        simp only [lexLe, Bool.or_eq_true, Bool.and_eq_true, decide_eq_true_eq,
          beq_iff_eq] at h1 h2 ⊢
        rcases h1 with h1 | ⟨e1, h1⟩ <;> rcases h2 with h2 | ⟨e2, h2⟩
        · left; omega
        · left; omega
        · left; omega
        · right; exact ⟨by omega, ih ys zs h1 h2⟩

instance : IsTotal (List Char) lexR := ⟨fun a b => lexLe_total a b⟩

instance : IsTrans (List Char) lexR := ⟨fun a b c h1 h2 => lexLe_trans a b c h1 h2⟩

/-- C5 (amended): for every folder and every positive exclusion count K the
scanner behaves as claimed: writing imgs for the name-sorted list of the png
files of the folder, the scanner returns the empty list when the folder has
K or fewer images, and the first length minus K elements of imgs, that is
imgs with exactly the last K removed, when it has more than K.  The
amendment restricts K to be positive because for K = 0 the Python slice
files[:-0] is empty, so the scanner returns the empty list also when more
than K images are present (see the counterexample). -/
theorem C5_get_image_files (files : List (List Char)) (K : Nat) (hK : 1 ≤ K) :
    (List.insertionSort lexR (files.filter isPngFile)).Perm (files.filter isPngFile) ∧
    List.Sorted lexR (List.insertionSort lexR (files.filter isPngFile)) ∧
    ((List.insertionSort lexR (files.filter isPngFile)).length ≤ K →
      get_image_files files K = []) ∧
    (K < (List.insertionSort lexR (files.filter isPngFile)).length →
      get_image_files files K =
        (List.insertionSort lexR (files.filter isPngFile)).take
          ((List.insertionSort lexR (files.filter isPngFile)).length - K)) := by
  refine ⟨List.perm_insertionSort lexR _, List.sorted_insertionSort lexR _, ?_, ?_⟩
  · intro h
    simp only [get_image_files]
    rw [if_neg (by omega)]
  · intro h
    simp only [get_image_files]
    rw [if_pos h, pySliceDropLast, if_neg (by omega)]

/-- C5 counterexample: with exclusion count K = 0 and a folder holding one
png image, which is more than K, the claim predicts the sorted image list
with the last zero entries removed, that is the whole singleton list; the
code instead computes the Python slice files[:-0], which is empty. -/
theorem C5_counterexample :
    get_image_files [String.toList "a.png"] 0 = [] ∧
    List.insertionSort lexR ([String.toList "a.png"].filter isPngFile) =
      [String.toList "a.png"] ∧
    ¬ get_image_files [String.toList "a.png"] 0 =
        List.insertionSort lexR ([String.toList "a.png"].filter isPngFile) :=
  ⟨by decide, by decide, by decide⟩

/-- Witness for C5: a folder with three png files and one other file, with
the default exclusion count 2: the scanner keeps exactly the first png in
sorted order. -/
theorem C5_witness :
    1 ≤ 2 ∧
    get_image_files [String.toList "c.png", String.toList "a.png",
        String.toList "x.txt", String.toList "b.png"] 2 =
      (List.insertionSort lexR ([String.toList "c.png", String.toList "a.png",
          String.toList "x.txt", String.toList "b.png"].filter isPngFile)).take
        ((List.insertionSort lexR ([String.toList "c.png", String.toList "a.png",
          String.toList "x.txt", String.toList "b.png"].filter isPngFile)).length - 2) ∧
    get_image_files [String.toList "c.png", String.toList "a.png",
        String.toList "x.txt", String.toList "b.png"] 2 = [String.toList "a.png"] :=
  ⟨by decide,
   (C5_get_image_files _ 2 (by decide)).2.2.2 (by decide),
   by decide⟩

/-- C10: the folder scanner globs only star-dot-png, so for every folder
whose files all have names not ending in .png, for example folders of jpg,
jpeg, tiff or bmp images as the --format option of the conversion step in
src/main.py can produce, get_image_files returns the empty list for every
exclusion count, regardless of how many image files are present. -/
theorem C10_png_only (files : List (List Char)) (K : Nat)
    (h : ∀ f ∈ files, isPngFile f = false) : get_image_files files K = [] := by
  have hfil : files.filter isPngFile = [] := by
    rw [List.filter_eq_nil_iff]
    intro a ha
    simp [h a ha]
  simp only [get_image_files, hfil]
  have hlt : ¬ K < (List.insertionSort lexR ([] : List (List Char))).length := by
    simp [List.insertionSort]
  rw [if_neg hlt]

/-- Witness for C10: a folder holding only jpg, jpeg, tiff and bmp files
yields no usable images. -/
theorem C10_witness :
    get_image_files [String.toList "a.jpg", String.toList "b.jpeg",
      String.toList "c.tiff", String.toList "d.bmp"] 2 = [] :=
  C10_png_only _ 2 (by decide)

/-- C6: every folder submits at most 8 images for upload — the eligible list
is truncated to the first 8 — and under any completion order the media
slots media_1 to media_8 of the produced record are filled left to right
from the successful upload urls in original image order, with every
unfilled slot holding the empty string. -/
theorem C6_process_folder (folder : RunFolder) (oracle : Nat → Nat → Option String)
    (order : List Nat)
    (h : order.Perm (List.range ((get_image_files folder.files 2).take 8).length)) :
    ((get_image_files folder.files 2).take 8).length ≤ 8 ∧
    (process_folder_parallel folder oracle order).1.media =
      (List.range 8).map (fun i =>
        ((List.range ((get_image_files folder.files 2).take 8).length).filterMap
          (fun j => (upload_to_cloudinary_with_retry (oracle j) 3).result)).getD i "") ∧
    (process_folder_parallel folder oracle order).1.media.length = 8 ∧
    ∀ i, i < 8 →
      ((List.range ((get_image_files folder.files 2).take 8).length).filterMap
        (fun j => (upload_to_cloudinary_with_retry (oracle j) 3).result)).length ≤ i →
      (process_folder_parallel folder oracle order).1.media.getD i "x" = "" := by
  have hu := upload_images_concurrently_perm
    (fun j => (upload_to_cloudinary_with_retry (oracle j) 3).result)
    ((get_image_files folder.files 2).take 8).length order h
  refine ⟨?_, ?_, ?_, ?_⟩
  · rw [List.length_take]
    exact Nat.min_le_left 8 _
  · simp only [process_folder_parallel, hu]
  · simp [process_folder_parallel]
  · intro i hi hlen
    simp only [process_folder_parallel, hu]
    rw [List.getD_eq_getElem?_getD, List.getElem?_map, List.getElem?_range hi]
    show (List.filterMap (fun j => (upload_to_cloudinary_with_retry (oracle j) 3).result)
        (List.range (List.take 8 (get_image_files folder.files 2)).length)).getD i "" = ""
    rw [List.getD_eq_getElem?_getD, List.getElem?_eq_none hlen]
    rfl

/-- Witness for C6: a folder with three png files, hence one eligible image
after the exclusion of the trailing two, uploaded successfully: the first
media slot holds the url and the remaining seven are empty. -/
theorem C6_witness :
    ((get_image_files [String.toList "a.png", String.toList "b.png",
        String.toList "c.png"] 2).take 8).length ≤ 8 ∧
    (process_folder_parallel ⟨String.toList "F",
        [String.toList "a.png", String.toList "b.png", String.toList "c.png"]⟩
        (fun _ _ => some "u") [0]).1.media =
      ["u", "", "", "", "", "", "", ""] := by
  have h := C6_process_folder ⟨String.toList "F",
      [String.toList "a.png", String.toList "b.png", String.toList "c.png"]⟩
      (fun _ _ => some "u") [0] (by decide)
  exact ⟨h.1, by rw [h.2.1]; decide⟩

/-- C1 (amended): the returned success value of populate_csv_parallel, and
hence the process exit status, is true exactly when every discovered folder
task yielded a record.  Because the embedded folder task is total — every
per-image upload failure is absorbed into empty media slots — a run in which
the folder pool completes reports success regardless of how many per-item
upload failures were recorded: the exit status reflects folder-task
completion only, never per-image upload failures. -/
theorem C1_success_folder_count (existing : List ProductData) (folders : List RunFolder)
    (oracle : Nat → Nat → Nat → Option String) (orders : Nat → List Nat)
    (folderOrder : List Nat) (h : folderOrder.Perm (List.range folders.length)) :
    (populate_csv_parallel existing folders oracle orders folderOrder).records.length =
      folders.length ∧
    (populate_csv_parallel existing folders oracle orders folderOrder).success = true := by
  have hlen : folderOrder.length = folders.length := by
    simpa [List.length_range] using h.length_eq
  constructor
  · simp [populate_csv_parallel, hlen]
  · simp [populate_csv_parallel, hlen]

/-- C1 counterexample: a run over one folder with one eligible image whose
upload fails all retries records one per-item failure in the metrics, yet
returns success true, so the process exits with status 0 even though a task
failed, contradicting the claimed equivalence. -/
theorem C1_counterexample :
    (populate_csv_parallel [] [⟨String.toList "F",
        [String.toList "a.png", String.toList "b.png", String.toList "c.png"]⟩]
      (fun _ _ _ => none) (fun _ => [0]) [0]).metrics.failed_uploads = 1 ∧
    (populate_csv_parallel [] [⟨String.toList "F",
        [String.toList "a.png", String.toList "b.png", String.toList "c.png"]⟩]
      (fun _ _ _ => none) (fun _ => [0]) [0]).success = true :=
  ⟨by decide, by decide⟩

/-- Witness for C1: a completed single-folder run in which every upload
fails still reports success. -/
theorem C1_witness :
    ([0] : List Nat).Perm (List.range 1) ∧
    (populate_csv_parallel [] [⟨String.toList "G",
        [String.toList "a.png", String.toList "b.png", String.toList "c.png"]⟩]
      (fun _ _ _ => none) (fun _ => [0]) [0]).success = true :=
  ⟨by decide,
   (C1_success_folder_count [] [⟨String.toList "G",
        [String.toList "a.png", String.toList "b.png", String.toList "c.png"]⟩]
      (fun _ _ _ => none) (fun _ => [0]) [0] (by decide)).2⟩

/-! ## Lemmas about the run trace -/

/-- Filtering the write events out of a run trace keeps at most one event. -/
theorem trace_write_count (existing recs : List ProductData) :
    ((recs.map RunEvent.folderDone ++
      (if recs.isEmpty then [] else [RunEvent.csvWrite (existing ++ recs)])).filter
        RunEvent.isWrite).length ≤ 1 := by
  rw [List.filter_append, List.length_append]
  have h1 : (recs.map RunEvent.folderDone).filter RunEvent.isWrite = [] := by
    rw [List.filter_eq_nil_iff]
    intro a ha
    obtain ⟨r, -, rfl⟩ := List.mem_map.mp ha
    simp [RunEvent.isWrite]
  rw [h1]
  cases recs with
  | nil => simp
  | cons r rs => simp [RunEvent.isWrite]

/-- Content of any written catalog of a run trace: the loaded rows unchanged
and in front, followed exactly by the new records. -/
theorem trace_write_content (existing recs rows : List ProductData)
    (hmem : RunEvent.csvWrite rows ∈
      recs.map RunEvent.folderDone ++
        (if recs.isEmpty then [] else [RunEvent.csvWrite (existing ++ recs)])) :
    rows = existing ++ recs := by
  rcases List.mem_append.mp hmem with hA | hB
  · obtain ⟨r, -, hr⟩ := List.mem_map.mp hA
    simp at hr
  · by_cases he : recs.isEmpty = true
    · rw [if_pos he] at hB
      cases hB
    · rw [if_neg he] at hB
      have h := List.mem_singleton.mp hB
      injection h with h2

/-- Shape of the run trace: the folder completion events in front, the write
events at the back. -/
theorem trace_done_then_write (existing recs : List ProductData) :
    recs.map RunEvent.folderDone ++
      (if recs.isEmpty then [] else [RunEvent.csvWrite (existing ++ recs)]) =
    ((recs.map RunEvent.folderDone ++
      (if recs.isEmpty then [] else [RunEvent.csvWrite (existing ++ recs)])).filter
        RunEvent.isDone) ++
    ((recs.map RunEvent.folderDone ++
      (if recs.isEmpty then [] else [RunEvent.csvWrite (existing ++ recs)])).filter
        RunEvent.isWrite) := by
  rw [List.filter_append, List.filter_append]
  have hA1 : (recs.map RunEvent.folderDone).filter RunEvent.isDone =
      recs.map RunEvent.folderDone := by
    rw [List.filter_eq_self]
    intro a ha
    obtain ⟨r, -, rfl⟩ := List.mem_map.mp ha
    rfl
  have hA2 : (recs.map RunEvent.folderDone).filter RunEvent.isWrite = [] := by
    rw [List.filter_eq_nil_iff]
    intro a ha
    obtain ⟨r, -, rfl⟩ := List.mem_map.mp ha
    simp [RunEvent.isWrite]
  rw [hA1, hA2]
  cases recs with
  | nil => simp
  | cons r rs => simp [RunEvent.isDone, RunEvent.isWrite]

/-- C8: in every run the catalog file is written at most once; the content
of any write consists exactly of the loaded rows, unmodified and in their
original position, followed by the newly produced records; and the trace
equals its folder completion events followed by its write events, so the
single write happens only after all folder tasks have resolved, never
incrementally mid-run. -/
theorem C8_catalog_write (existing : List ProductData) (folders : List RunFolder)
    (oracle : Nat → Nat → Nat → Option String) (orders : Nat → List Nat)
    (folderOrder : List Nat) :
    ((populate_csv_parallel existing folders oracle orders folderOrder).trace.filter
        RunEvent.isWrite).length ≤ 1 ∧
    (∀ rows, RunEvent.csvWrite rows ∈
        (populate_csv_parallel existing folders oracle orders folderOrder).trace →
      rows = existing ++
        (populate_csv_parallel existing folders oracle orders folderOrder).records) ∧
    (populate_csv_parallel existing folders oracle orders folderOrder).trace =
      ((populate_csv_parallel existing folders oracle orders folderOrder).trace.filter
        RunEvent.isDone) ++
      ((populate_csv_parallel existing folders oracle orders folderOrder).trace.filter
        RunEvent.isWrite) := by
  refine ⟨?_, ?_, ?_⟩
  · simp only [populate_csv_parallel]
    exact trace_write_count existing _
  · intro rows hmem
    simp only [populate_csv_parallel] at hmem ⊢
    exact trace_write_content existing _ rows hmem
  · simp only [populate_csv_parallel]
    exact trace_done_then_write existing _

/-- Witness for C8: a run with one loaded row and one folder of three png
files whose single eligible image uploads successfully; the written file is
the loaded row followed by the new record. -/
theorem C8_witness :
    ((populate_csv_parallel
        [⟨String.toList "E", String.toList "D", [], [], [], [], [], [], [], [], []⟩]
        [⟨String.toList "F",
          [String.toList "a.png", String.toList "b.png", String.toList "c.png"]⟩]
        (fun _ _ _ => some "u") (fun _ => [0]) [0]).trace.filter
          RunEvent.isWrite).length ≤ 1 ∧
    [(⟨String.toList "E", String.toList "D", [], [], [], [], [], [], [], [], []⟩ : ProductData),
     ⟨String.toList "F", String.toList "Product from F", [], [], [], [],
       String.toList "pcs", [], [], [], ["u", "", "", "", "", "", "", ""]⟩] =
      [⟨String.toList "E", String.toList "D", [], [], [], [], [], [], [], [], []⟩] ++
        (populate_csv_parallel
          [⟨String.toList "E", String.toList "D", [], [], [], [], [], [], [], [], []⟩]
          [⟨String.toList "F",
            [String.toList "a.png", String.toList "b.png", String.toList "c.png"]⟩]
          (fun _ _ _ => some "u") (fun _ => [0]) [0]).records := by
  have h := C8_catalog_write
    [⟨String.toList "E", String.toList "D", [], [], [], [], [], [], [], [], []⟩]
    [⟨String.toList "F",
      [String.toList "a.png", String.toList "b.png", String.toList "c.png"]⟩]
    (fun _ _ _ => some "u") (fun _ => [0]) [0]
  exact ⟨h.1, h.2.1
    [⟨String.toList "E", String.toList "D", [], [], [], [], [], [], [], [], []⟩,
     ⟨String.toList "F", String.toList "Product from F", [], [], [], [],
       String.toList "pcs", [], [], [], ["u", "", "", "", "", "", "", ""]⟩]
    (by decide)⟩

/-! ## Lemmas about the performance monitor model -/

/-- Counter effect of a lock-respecting schedule: every read-modify-write
block adds exactly one. -/
theorem runSchedule_locked_counter (ws : List Nat) :
    ∀ s : PerfState, (runSchedule (lockedSchedule ws) s).processed_images =
      s.processed_images + ws.length := by
  induction ws with
  | nil => intro s; simp [runSchedule, lockedSchedule]
  | cons w t ih =>
    intro s
    show (runSchedule (lockedSchedule t)
      (execOp (execOp s (MicroOp.readCount w)) (MicroOp.writeCount w))).processed_images = _
    rw [ih]
    simp [execOp]
    omega

/-- Length of a list of worker identifiers drawn from N workers in which
each worker occurs M times. -/
theorem length_of_counts (N M : Nat) (ws : List Nat)
    (hmem : ∀ w ∈ ws, w < N) (hcount : ∀ w, w < N → ws.count w = M) :
    ws.length = N * M := by
  classical
  have hsub : (ws : Multiset Nat).toFinset ⊆ Finset.range N := by
    intro a ha
    rw [Finset.mem_range]
    exact hmem a (by simpa using ha)
  have h3 : ∑ a ∈ Finset.range N, Multiset.count a (ws : Multiset Nat) =
      ∑ a ∈ (ws : Multiset Nat).toFinset, Multiset.count a (ws : Multiset Nat) := by
    apply (Finset.sum_subset hsub ?_).symm
    intro x _ hx
    rw [Multiset.count_eq_zero]
    intro hmem2
    exact hx (Multiset.mem_toFinset.mpr hmem2)
  have h1 : ws.length = ∑ w ∈ Finset.range N, ws.count w := by
    calc ws.length = Multiset.card (ws : Multiset Nat) := by simp
    _ = ∑ a ∈ (ws : Multiset Nat).toFinset, Multiset.count a (ws : Multiset Nat) :=
        (Multiset.toFinset_sum_count_eq _).symm
    _ = ∑ a ∈ Finset.range N, Multiset.count a (ws : Multiset Nat) := h3.symm
    _ = ∑ w ∈ Finset.range N, ws.count w := by
        apply Finset.sum_congr rfl
        intro x _
        simp [Multiset.coe_count]
  rw [h1, Finset.sum_congr rfl (fun x hx => hcount x (Finset.mem_range.mp hx))]
  simp [Finset.sum_const, Finset.card_range, smul_eq_mul]

/-- C9: the lock of the performance monitor makes each counter update an
atomic read-modify-write block, so for every lock-respecting schedule in
which each of N concurrent workers runs its image-counter increment M times,
in an arbitrary interleaving order of lock acquisition, the final counter
holds exactly N times M starting from zero: no update is lost. -/
theorem C9_no_lost_updates (N M : Nat) (ws : List Nat)
    (hmem : ∀ w ∈ ws, w < N) (hcount : ∀ w, w < N → ws.count w = M)
    (s : PerfState) (hs : s.processed_images = 0) :
    (runSchedule (lockedSchedule ws) s).processed_images = N * M := by
  rw [runSchedule_locked_counter ws s, hs, Nat.zero_add,
    length_of_counts N M ws hmem hcount]

/-- Witness for C9: two workers each incrementing twice, interleaved, end at
exactly four. -/
theorem C9_witness :
    (runSchedule (lockedSchedule [0, 1, 1, 0]) ⟨0, fun _ => 0⟩).processed_images = 2 * 2 :=
  C9_no_lost_updates 2 2 [0, 1, 1, 0] (by decide)
    (fun w hw => by interval_cases w <;> decide) ⟨0, fun _ => 0⟩ rfl
